import Mathlib

/-!
Verification development for the `sportscanner` repository core:
the crawl/refresh write path (`sportscanner/crawlers/pipeline.py`) and the
badminton search read path
(`sportscanner/api/routers/search/badminton/endpoints.py`).

Shallow embedding conventions:
* Python calendar dates are embedded as `Date` (year/month/day as `Nat`);
  for the crawl trigger, `date.today() + timedelta(days=i)` is embedded as
  ordinal day numbers (`Nat`), since `timedelta` addition is exactly ordinal
  addition.
* Python `float` distances are embedded as `ℚ`: the only operations the code
  performs on them are order comparisons, which agree with the rational order
  on the decimal values involved.
* Fallible Python code (exceptions) is embedded as `Except String`.
* Functions of this repository that are referenced from the two source files
  but whose own code is not under `src/` (the crawler gather helper, the
  storage layer, the grouping/formatting helpers) are modelled from the spec;
  each such definition carries a doc comment starting `Modelled from the
  spec:`.
-/

/-- A calendar date (no time component), as used by `datetime.date`. -/
structure Date where
  year : Nat
  month : Nat
  day : Nat
deriving DecidableEq, Repr

/-- Strict comparison of calendar dates (`datetime.date.__lt__`):
lexicographic on (year, month, day). -/
def Date.lt (a b : Date) : Bool :=
  decide (a.year < b.year) ||
    (decide (a.year = b.year) &&
      (decide (a.month < b.month) ||
        (decide (a.month = b.month) && decide (a.day < b.day))))

/-- Non-strict comparison of calendar dates (`datetime.date.__le__`). -/
def Date.le (a b : Date) : Bool :=
  Date.lt a b || decide (a = b)

/-- The Unified Record produced by every source adapter and persisted in the
dataset (`UnifiedParserSchema` in `sportscanner/crawlers/parsers/schema.py`,
shape taken from the spec's data model): venue+court composite key, calendar
date, a time-of-day window (embedded as minutes), and a free-slot count. -/
structure UnifiedParserSchema where
  composite_key : String
  date : Date
  starting_time : Nat
  ending_time : Nat
  spaces : Nat
deriving DecidableEq, Repr

/-- The persisted table rows (`db.SportScanner`) carry the Unified Record
fields; the read path queries them directly. -/
abbrev SportScanner := UnifiedParserSchema

/-- Modelled from the spec: a venue row returned by
`get_all_sports_venues(engine)` (storage layer, not under `src/`):
`get_all_venues() -> sequence of (composite_key, venue_identifier)`. -/
structure SportsVenue where
  composite_key : String
  venue_identifier : String
deriving DecidableEq, Repr

/-! ## Write path: `sportscanner/crawlers/pipeline.py` -/

/-- A Python object appearing inside one per-operation response: either a
genuine `UnifiedParserSchema` record, or any other object (the
`isinstance` check in `flatten_responses` distinguishes exactly these). -/
inductive PySlot where
  | record (r : UnifiedParserSchema)
  | other (tag : String)
deriving DecidableEq, Repr

/-- One element of `responses_from_all_sources`: per-operation result, which
the comprehension in `flatten_responses` tests for truthiness (`None` and the
empty list are falsy) and then iterates. -/
inductive PyResponse where
  | pynone
  | pylist (slots : List PySlot)
deriving DecidableEq, Repr

/-- Python truthiness of a response: `None` and `[]` are falsy. -/
def PyResponse.truthy : PyResponse → Bool
  | .pynone => false
  | .pylist s => !s.isEmpty

/-- The elements iterated by `for slot in response`. -/
def PyResponse.elems : PyResponse → List PySlot
  | .pynone => []
  | .pylist s => s

/-- The `isinstance(slot, UnifiedParserSchema)` check. -/
def PySlot.isUnified : PySlot → Bool
  | .record _ => true
  | .other _ => false

/-- The list comprehension in `flatten_responses` (pipeline.py:28-30):
`[slot for response in responses_from_all_sources if response for slot in
response]` — keep only truthy responses, then concatenate their elements in
input order. -/
def flattenComprehension (responses : List PyResponse) : List PySlot :=
  ((responses.filter PyResponse.truthy).map PyResponse.elems).flatten

/-- The task `flatten_responses` (pipeline.py:27-33): build `_validation_check` by the
comprehension above, raise `TypeError` unless every element is a
`UnifiedParserSchema`, otherwise return the flattened list. -/
def flatten_responses (responses : List PyResponse) :
    Except String (List PySlot) :=
  let v := flattenComprehension responses
  if v.all PySlot.isUnified then Except.ok v
  else Except.error
    ("TypeError: One or more elements in _validation_check are not of type: UnifiedParserSchema")

/-- Modelled from the spec: `SportscannerCrawlerBot`
(`sportscanner/crawlers/helpers.py`, not under `src/`) gathers all submitted
fetch operations and is fail-fast — if any single operation raises, the whole
call raises; otherwise it returns one record sequence per operation, in
submission order.  A fetch operation's outcome is embedded as
`Except String (List UnifiedParserSchema)`. -/
def SportscannerCrawlerBot :
    List (Except String (List UnifiedParserSchema)) →
    Except String (List (List UnifiedParserSchema))
  | [] => Except.ok []
  | Except.error e :: _ => Except.error e
  | Except.ok l :: ops =>
    match SportscannerCrawlerBot ops with
    | Except.error e => Except.error e
    | Except.ok rest => Except.ok (l :: rest)

/-- Modelled from the spec: `delete_all_items_and_insert_fresh_to_db`
(storage layer, not under `src/`) performs delete-all-then-insert-all: the
prior dataset is discarded and the new batch becomes the whole dataset. -/
def delete_all_items_and_insert_fresh_to_db
    (_prior batch : List UnifiedParserSchema) : List UnifiedParserSchema :=
  batch

/-- Extract the records from an all-valid flattened slot list (the Python list
is returned unchanged; its elements are then used as records). -/
def extractRecords (slots : List PySlot) : List UnifiedParserSchema :=
  slots.filterMap (fun s =>
    match s with
    | .record r => some r
    | .other _ => none)

/-- The crawl horizon of `full_data_refresh_pipeline` (pipeline.py:42-43):
`dates = [today + timedelta(days=i) for i in range(15)]`, with calendar dates
embedded as ordinal day numbers. -/
def full_refresh_dates (today : Nat) : List Nat :=
  (List.range 15).map (fun i => today + i)

/-- The (dates, venue identifiers) pair handed to every source adapter's
`pipeline` by `full_data_refresh_pipeline` (pipeline.py:42-53): the fixed
15-day horizon and the composite keys of all venues from the venue store. -/
def crawl_arguments (today : Nat) (venues : List SportsVenue) :
    List Nat × List String :=
  (full_refresh_dates today, venues.map SportsVenue.composite_key)

/-- The flow `full_data_refresh_pipeline` (pipeline.py:38-72), with explicit state
passing for the persisted dataset `ds`.  The four source adapters are
abstracted as one function `adapters` from (dates, venue identifiers) to the
submitted fetch operations (adapters are black boxes per the spec).  The
fetch results run through the fail-fast gather, then `flatten_responses`,
then the delete-all-then-insert-all publish; any raised error propagates and
leaves the dataset untouched. -/
def full_data_refresh_pipeline (today : Nat) (venues : List SportsVenue)
    (adapters : List Nat → List String →
      List (Except String (List UnifiedParserSchema)))
    (ds : List UnifiedParserSchema) :
    Except String Bool × List UnifiedParserSchema :=
  let args := crawl_arguments today venues
  match SportscannerCrawlerBot (adapters args.1 args.2) with
  | Except.error e => (Except.error e, ds)
  | Except.ok responses =>
    match flatten_responses
        (responses.map (fun l => PyResponse.pylist (l.map PySlot.record))) with
    | Except.error e => (Except.error e, ds)
    | Except.ok slots =>
      (Except.ok true, delete_all_items_and_insert_fresh_to_db ds (extractRecords slots))

/-- A Python object as handled by `itertools.chain.from_iterable` in
`standalone_refresh_trigger`: a list, or a `UnifiedParserSchema` record. -/
inductive PyObj where
  | record (r : UnifiedParserSchema)
  | pylist (xs : List PyObj)

/-- Iterating a Python object: lists yield their elements; a Unified Record
is an atomic fact (the spec gives it no sequence semantics), so iterating one
is a `TypeError`. -/
def pyIter : PyObj → Except String (List PyObj)
  | .pylist xs => Except.ok xs
  | .record _ =>
    Except.error ("TypeError: UnifiedParserSchema object is not iterable")

/-- Python `itertools.chain.from_iterable`: iterate each element and concatenate. -/
def chain_from_iterable (xs : List PyObj) : Except String (List PyObj) :=
  match xs with
  | [] => Except.ok []
  | x :: rest =>
    match pyIter x, chain_from_iterable rest with
    | Except.error e, _ => Except.error e
    | Except.ok _, Except.error e => Except.error e
    | Except.ok l, Except.ok ls => Except.ok (l ++ ls)

/-- The coroutine `standalone_refresh_trigger` (pipeline.py:75-90), with explicit state
passing for the persisted dataset `ds`.  The gather outcome over the two
sources' operations is the parameter `fetched` (spec contract: one record
sequence per operation).  The body computes
`list(chain.from_iterable(chain.from_iterable(all_fetched_slots)))` and
returns it; it never touches the dataset. -/
def standalone_refresh_trigger
    (fetched : Except String (List (List UnifiedParserSchema)))
    (ds : List UnifiedParserSchema) :
    Except String (List PyObj) × List UnifiedParserSchema :=
  match fetched with
  | Except.error e => (Except.error e, ds)
  | Except.ok all_fetched_slots =>
    let asPy : List PyObj :=
      all_fetched_slots.map (fun l => PyObj.pylist (l.map PyObj.record))
    match chain_from_iterable asPy with
    | Except.error e => (Except.error e, ds)
    | Except.ok once => (chain_from_iterable once, ds)

/-! ## Read path: `sportscanner/api/routers/search/badminton/endpoints.py` -/

/-- The caller-supplied time-of-day window (`filters.timeRange`). -/
structure TimeRange where
  starting : Nat
  ending : Nat
deriving DecidableEq, Repr

/-- The caller-supplied date window (`filters.dateRange`). -/
structure DateRange where
  starting : Date
  ending : Date
deriving DecidableEq, Repr

/-- The caller-supplied search criteria used by the storage query. -/
structure SearchCriteria where
  timeRange : TimeRange
  dateRange : DateRange
deriving DecidableEq, Repr

/-- The `WHERE` clause of the availability query in `search`
(endpoints.py:58-74): composite key among the resolved venues, strictly
positive spaces, time window inside the caller's time range, date at or after
the query day (`datetime.now().date()`), and date inside the caller's date
range. -/
def searchWhere (today : Date) (composite_keys : List String)
    (filters : SearchCriteria) (r : SportScanner) : Bool :=
  composite_keys.contains r.composite_key
    && decide (0 < r.spaces)
    && Nat.ble filters.timeRange.starting r.starting_time
    && Nat.ble r.ending_time filters.timeRange.ending
    && Date.le today r.date
    && Date.le filters.dateRange.starting r.date
    && Date.le r.date filters.dateRange.ending

/-- Modelled from the spec: `db.get_all_rows(engine, model, select)` (storage
layer, not under `src/`) executes the select against the persisted dataset;
the `WHERE` clause itself is taken from the source (`searchWhere`), so the
call is embedded as filtering the dataset by it. -/
def get_all_rows (ds : List SportScanner) (today : Date)
    (composite_keys : List String) (filters : SearchCriteria) :
    List SportScanner :=
  ds.filter (searchWhere today composite_keys filters)

/-- The grouping key used by the aggregation:
`attributes=("composite_key", "date")` (endpoints.py:75-77). -/
def groupKey (r : UnifiedParserSchema) : String × Date :=
  (r.composite_key, r.date)

/-- The distinct grouping keys of a row list, in first-occurrence order. -/
def groupKeys : List UnifiedParserSchema → List (String × Date)
  | [] => []
  | r :: rs => groupKey r :: (groupKeys rs).filter (fun k => decide (k ≠ groupKey r))

/-- Modelled from the spec: `group_slots_by_attributes(slots,
attributes=("composite_key", "date"))`
(`sportscanner/storage/postgres/dataset_transform.py`, not under `src/`):
groups the input rows by exact (composite_key, date) equality; keys appear in
first-occurrence order and each group holds its rows in input order. -/
def group_slots_by_attributes (rows : List UnifiedParserSchema) :
    List ((String × Date) × List UnifiedParserSchema) :=
  (groupKeys rows).map
    (fun k => (k, rows.filter (fun r => decide (groupKey r = k))))

/-- One entry of the `_response` list handed to the final `sorted` call in
`search`: a venue+date group decorated with its distance, carrying the date
it renders as a `"%a, %b %d"` display string. -/
structure GroupedResult where
  composite_key : String
  date : Date
  distance : ℚ
  slots : List UnifiedParserSchema
deriving DecidableEq, Repr

/-- The identifying (group, distance) content of a `GroupedResult`,
disregarding the intra-group slot order. -/
def gid (g : GroupedResult) : String × Date × ℚ :=
  (g.composite_key, g.date, g.distance)

/-- Modelled from the spec: `sort_and_format_grouped_slots_for_ui(grouped_slots,
distance_from_venues_reference)`
(`sportscanner/storage/postgres/dataset_transform.py`, not under `src/`):
decorates each group with the distance of its venue from the distance map (a
composite key missing from the map is a data-consistency failure, embedded as
the `KeyError` a Python dict subscript raises) and formats each group's date
for the UI; group order is preserved, so ties in the later stable sort fall
back to first-occurrence input order. -/
def sort_and_format_grouped_slots_for_ui
    (groups : List ((String × Date) × List UnifiedParserSchema))
    (distances : List (String × ℚ)) : Except String (List GroupedResult) :=
  match groups with
  | [] => Except.ok []
  | (k, rs) :: gs =>
    match distances.lookup k.1 with
    | none => Except.error ("KeyError: " ++ k.1)
    | some d =>
      match sort_and_format_grouped_slots_for_ui gs distances with
      | Except.error e => Except.error e
      | Except.ok tail => Except.ok (⟨k.1, k.2, d, rs⟩ :: tail)

/-- Month lengths of the year 1900 (the default year `datetime.strptime`
substitutes when the format carries no year).  1900 is not a leap year, so
February has 28 days. -/
def daysInMonth1900 : Nat → Nat
  | 1 => 31
  | 2 => 28
  | 3 => 31
  | 4 => 30
  | 5 => 31
  | 6 => 30
  | 7 => 31
  | 8 => 31
  | 9 => 30
  | 10 => 31
  | 11 => 30
  | 12 => 31
  | _ => 0

/-- Whether `datetime.strptime(x["date"], "%a, %b %d")` (endpoints.py:88)
accepts the display string of this date: the (month, day) pair must be a
valid date of the default year 1900, otherwise `strptime` raises
`ValueError` — notably for February 29, since 1900 is not a leap year. -/
def strptimeOk (d : Date) : Bool :=
  decide (1 ≤ d.month) && decide (d.month ≤ 12) && decide (1 ≤ d.day)
    && decide (d.day ≤ daysInMonth1900 d.month)

/-- The sort key of the final `sorted` call in `search` (endpoints.py:84-91)
for a date string that `strptime` accepts (see `strptimeOk`, checked by
`searchAggregate` before sorting): the parsed datetime carries the default
year 1900, so it is determined by (month, day) alone; the second component
is `x["distance"]`. -/
def searchSortKey (g : GroupedResult) : Nat × Nat × ℚ :=
  (g.date.month, g.date.day, g.distance)

/-- Lexicographic comparison of two sort keys, exactly as Python compares the
`(datetime, float)` key tuples. -/
def keyLE (x y : Nat × Nat × ℚ) : Bool :=
  decide (x.1 < y.1) ||
    (decide (x.1 = y.1) &&
      (decide (x.2.1 < y.2.1) ||
        (decide (x.2.1 = y.2.1) && decide (x.2.2 ≤ y.2.2))))

/-- The comparison used to sort `_response`. -/
def gRel (a b : GroupedResult) : Prop :=
  keyLE (searchSortKey a) (searchSortKey b) = true

instance : DecidableRel gRel :=
  fun a b =>
    inferInstanceAs (Decidable (keyLE (searchSortKey a) (searchSortKey b) = true))

/-- The whole post-query aggregation of `search` (endpoints.py:75-91): group
the rows, decorate each group with its distance, then stable-sort by the
parsed date string and the distance.  Python's `sorted` first computes the
key of every element — raising `ValueError` if any date string fails the
`strptime` parse (a Feb 29 date, absent in the default year 1900) — and then
sorts stably; this is embedded as a `strptimeOk` check over all groups
followed by insertion sort, which is stable. -/
def searchAggregate (rows : List UnifiedParserSchema)
    (distances : List (String × ℚ)) : Except String (List GroupedResult) :=
  match sort_and_format_grouped_slots_for_ui
      (group_slots_by_attributes rows) distances with
  | Except.error e => Except.error e
  | Except.ok resp =>
    if resp.all (fun g => strptimeOk g.date) then
      Except.ok (List.insertionSort gRel resp)
    else Except.error ("ValueError: day is out of range for month")

/-- The comparison `keyLE` as a relation on sort keys. -/
def kRel (u v : Nat × Nat × ℚ) : Prop := keyLE u v = true

instance : DecidableRel kRel :=
  fun u v => inferInstanceAs (Decidable (keyLE u v = true))

/-- A sample valid record used by concrete witness instantiations. -/
def sampleRecord : UnifiedParserSchema :=
  ⟨"better-x-court-1", ⟨2024, 6, 1⟩, 600, 660, 3⟩

/-! ## Helper lemmas -/

theorem keyLE_iff (x y : Nat × Nat × ℚ) :
    keyLE x y = true ↔
      (x.1 < y.1 ∨ (x.1 = y.1 ∧
        (x.2.1 < y.2.1 ∨ (x.2.1 = y.2.1 ∧ x.2.2 ≤ y.2.2)))) := by
  simp [keyLE]

theorem keyLE_refl (x : Nat × Nat × ℚ) : keyLE x x = true := by
  simp [keyLE]

theorem keyLE_total (x y : Nat × Nat × ℚ) :
    keyLE x y = true ∨ keyLE y x = true := by
  rw [keyLE_iff, keyLE_iff]
  rcases Nat.lt_trichotomy x.1 y.1 with h | h | h
  · exact Or.inl (Or.inl h)
  · rcases Nat.lt_trichotomy x.2.1 y.2.1 with h2 | h2 | h2
    · exact Or.inl (Or.inr ⟨h, Or.inl h2⟩)
    · rcases le_total x.2.2 y.2.2 with h3 | h3
      · exact Or.inl (Or.inr ⟨h, Or.inr ⟨h2, h3⟩⟩)
      · exact Or.inr (Or.inr ⟨h.symm, Or.inr ⟨h2.symm, h3⟩⟩)
    · exact Or.inr (Or.inr ⟨h.symm, Or.inl h2⟩)
  · exact Or.inr (Or.inl h)

theorem keyLE_trans {x y z : Nat × Nat × ℚ}
    (h1 : keyLE x y = true) (h2 : keyLE y z = true) : keyLE x z = true := by
  rw [keyLE_iff] at h1 h2 ⊢
  rcases h1 with h1 | ⟨e1, h1⟩
  · rcases h2 with h2 | ⟨e2, _⟩
    · exact Or.inl (h1.trans h2)
    · exact Or.inl (e2 ▸ h1)
  · rcases h2 with h2 | ⟨e2, h2⟩
    · exact Or.inl (e1 ▸ h2)
    · refine Or.inr ⟨e1.trans e2, ?_⟩
      rcases h1 with h1 | ⟨f1, h1⟩
      · rcases h2 with h2 | ⟨f2, _⟩
        · exact Or.inl (h1.trans h2)
        · exact Or.inl (f2 ▸ h1)
      · rcases h2 with h2 | ⟨f2, h2⟩
        · exact Or.inl (f1 ▸ h2)
        · exact Or.inr ⟨f1.trans f2, h1.trans h2⟩

theorem keyLE_antisymm {x y : Nat × Nat × ℚ}
    (h1 : keyLE x y = true) (h2 : keyLE y x = true) : x = y := by
  rw [keyLE_iff] at h1 h2
  have e1 : x.1 = y.1 := by
    rcases h1 with h | ⟨e, _⟩ <;> rcases h2 with h' | ⟨e', _⟩ <;> omega
  have h1' := h1.resolve_left (by omega)
  have h2' := h2.resolve_left (by omega)
  have e2 : x.2.1 = y.2.1 := by
    rcases h1'.2 with h | ⟨e, _⟩ <;> rcases h2'.2 with h' | ⟨e', _⟩ <;> omega
  have h1'' := h1'.2.resolve_left (by omega)
  have h2'' := h2'.2.resolve_left (by omega)
  have e3 : x.2.2 = y.2.2 := le_antisymm h1''.2 h2''.2
  exact Prod.ext e1 (Prod.ext e2 e3)

instance : IsTotal GroupedResult gRel :=
  ⟨fun a b => keyLE_total (searchSortKey a) (searchSortKey b)⟩

instance : IsTrans GroupedResult gRel :=
  ⟨fun _ _ _ h1 h2 => keyLE_trans h1 h2⟩

instance : IsAntisymm (Nat × Nat × ℚ) kRel :=
  ⟨fun _ _ h1 h2 => keyLE_antisymm h1 h2⟩

theorem mem_groupKeys {k : String × Date} {rows : List UnifiedParserSchema} :
    k ∈ groupKeys rows ↔ k ∈ rows.map groupKey := by
  induction rows with
  | nil => simp [groupKeys]
  | cons r rs ih =>
    simp only [groupKeys, List.map_cons, List.mem_cons, List.mem_filter,
      decide_eq_true_eq]
    constructor
    · rintro (h | ⟨h, _⟩)
      · exact Or.inl h
      · exact Or.inr (ih.mp h)
    · rintro (h | h)
      · exact Or.inl h
      · by_cases hk : k = groupKey r
        · exact Or.inl hk
        · exact Or.inr ⟨ih.mpr h, hk⟩

theorem groupKeys_nodup (rows : List UnifiedParserSchema) :
    (groupKeys rows).Nodup := by
  induction rows with
  | nil => simp [groupKeys]
  | cons r rs ih =>
    simp only [groupKeys, List.nodup_cons]
    refine ⟨?_, ih.filter _⟩
    intro hmem
    have := List.of_mem_filter hmem
    simp at this

theorem groupKeys_perm {rows rows' : List UnifiedParserSchema}
    (h : rows.Perm rows') : (groupKeys rows).Perm (groupKeys rows') := by
  refine (List.perm_ext_iff_of_nodup (groupKeys_nodup _) (groupKeys_nodup _)).mpr ?_
  intro k
  rw [mem_groupKeys, mem_groupKeys]
  exact (h.map groupKey).mem_iff

theorem filter_key_orderedInsert (a : GroupedResult) (l : List GroupedResult)
    (v : Nat × Nat × ℚ) :
    (List.orderedInsert gRel a l).filter (fun g => decide (searchSortKey g = v)) =
      if searchSortKey a = v
      then a :: l.filter (fun g => decide (searchSortKey g = v))
      else l.filter (fun g => decide (searchSortKey g = v)) := by
  induction l with
  | nil =>
    rw [List.orderedInsert_nil, List.filter_cons]
    by_cases hv : searchSortKey a = v
    · simp [hv]
    · simp [hv]
  | cons b t ih =>
    by_cases hab : gRel a b
    · simp only [List.orderedInsert, if_pos hab]
      rw [List.filter_cons]
      by_cases hv : searchSortKey a = v
      · simp [hv]
      · simp [hv]
    · have hba : searchSortKey b ≠ searchSortKey a := by
        intro e
        exact hab (show keyLE (searchSortKey a) (searchSortKey b) = true by
          rw [e]; exact keyLE_refl _)
      simp only [List.orderedInsert, if_neg hab]
      rw [List.filter_cons, ih, List.filter_cons]
      by_cases hv : searchSortKey a = v
      · have hbv : ¬ (searchSortKey b = v) := fun e => hba (e.trans hv.symm)
        simp [hv, hbv]
      · by_cases hbv : searchSortKey b = v
        · simp [hv, hbv]
        · simp [hv, hbv]

theorem filter_key_insertionSort (l : List GroupedResult) (v : Nat × Nat × ℚ) :
    (List.insertionSort gRel l).filter (fun g => decide (searchSortKey g = v)) =
      l.filter (fun g => decide (searchSortKey g = v)) := by
  induction l with
  | nil => rfl
  | cons a t ih =>
    show (List.orderedInsert gRel a (List.insertionSort gRel t)).filter _ = _
    rw [filter_key_orderedInsert, ih, List.filter_cons]
    by_cases hv : searchSortKey a = v
    · simp [hv]
    · simp [hv]

theorem group_slots_fst (rows : List UnifiedParserSchema) :
    (group_slots_by_attributes rows).map Prod.fst = groupKeys rows := by
  simp [group_slots_by_attributes, List.map_map, Function.comp_def]

theorem decorate_error_of_missing
    {groups : List ((String × Date) × List UnifiedParserSchema)}
    {distances : List (String × ℚ)}
    (h : ∃ p ∈ groups, distances.lookup p.1.1 = none) :
    ∃ e, sort_and_format_grouped_slots_for_ui groups distances =
      Except.error e := by
  induction groups with
  | nil => obtain ⟨p, hp, _⟩ := h; cases hp
  | cons g gs ih =>
    obtain ⟨k, rs⟩ := g
    obtain ⟨p, hp, hnone⟩ := h
    rcases List.mem_cons.mp hp with rfl | hp'
    · refine ⟨"KeyError: " ++ k.1, ?_⟩
      simp [sort_and_format_grouped_slots_for_ui, hnone]
    · cases hl : distances.lookup k.1 with
      | none =>
        refine ⟨"KeyError: " ++ k.1, ?_⟩
        simp [sort_and_format_grouped_slots_for_ui, hl]
      | some d =>
        obtain ⟨e, he⟩ := ih ⟨p, hp', hnone⟩
        refine ⟨e, ?_⟩
        simp [sort_and_format_grouped_slots_for_ui, hl, he]

theorem decorate_ok_of_covered
    {groups : List ((String × Date) × List UnifiedParserSchema)}
    {distances : List (String × ℚ)}
    (h : ∀ p ∈ groups, (distances.lookup p.1.1).isSome = true) :
    ∃ resp, sort_and_format_grouped_slots_for_ui groups distances =
      Except.ok resp := by
  induction groups with
  | nil => exact ⟨[], rfl⟩
  | cons g gs ih =>
    obtain ⟨k, rs⟩ := g
    have hk := h _ (List.mem_cons_self _ _)
    obtain ⟨d, hd⟩ := Option.isSome_iff_exists.mp hk
    obtain ⟨tail, htail⟩ := ih (fun p hp => h p (List.mem_cons_of_mem _ hp))
    refine ⟨⟨k.1, k.2, d, rs⟩ :: tail, ?_⟩
    simp only [sort_and_format_grouped_slots_for_ui]
    rw [hd, htail]

theorem decorate_map_gid
    {groups : List ((String × Date) × List UnifiedParserSchema)}
    {distances : List (String × ℚ)} {resp : List GroupedResult}
    (h : sort_and_format_grouped_slots_for_ui groups distances =
      Except.ok resp) :
    resp.map gid =
      groups.map (fun p => (p.1.1, p.1.2, (distances.lookup p.1.1).getD 0)) := by
  induction groups generalizing resp with
  | nil =>
    simp only [sort_and_format_grouped_slots_for_ui] at h
    obtain rfl := (Except.ok.inj h).symm
    rfl
  | cons g gs ih =>
    obtain ⟨k, rs⟩ := g
    simp only [sort_and_format_grouped_slots_for_ui] at h
    cases hl : distances.lookup k.1 with
    | none => rw [hl] at h; cases h
    | some d =>
      rw [hl] at h
      cases ht : sort_and_format_grouped_slots_for_ui gs distances with
      | error e => rw [ht] at h; cases h
      | ok tail =>
        rw [ht] at h
        obtain rfl := (Except.ok.inj h).symm
        simp [gid, ih ht, hl]

theorem decorate_covered_of_ok
    {groups : List ((String × Date) × List UnifiedParserSchema)}
    {distances : List (String × ℚ)} {resp : List GroupedResult}
    (h : sort_and_format_grouped_slots_for_ui groups distances =
      Except.ok resp) :
    ∀ p ∈ groups, (distances.lookup p.1.1).isSome = true := by
  induction groups generalizing resp with
  | nil => intro p hp; cases hp
  | cons g gs ih =>
    obtain ⟨k, rs⟩ := g
    simp only [sort_and_format_grouped_slots_for_ui] at h
    cases hl : distances.lookup k.1 with
    | none => rw [hl] at h; cases h
    | some d =>
      rw [hl] at h
      cases ht : sort_and_format_grouped_slots_for_ui gs distances with
      | error e => rw [ht] at h; cases h
      | ok tail =>
        intro p hp
        rcases List.mem_cons.mp hp with rfl | hp'
        · simp [hl]
        · exact ih ht p hp'

theorem bot_cons_error (e : String)
    (ops : List (Except String (List UnifiedParserSchema))) :
    SportscannerCrawlerBot (Except.error e :: ops) = Except.error e := rfl

theorem bot_cons_ok (l : List UnifiedParserSchema)
    (ops : List (Except String (List UnifiedParserSchema))) :
    SportscannerCrawlerBot (Except.ok l :: ops) =
      match SportscannerCrawlerBot ops with
      | Except.error e => Except.error e
      | Except.ok rest => Except.ok (l :: rest) := rfl

theorem bot_error_of_mem
    {ops : List (Except String (List UnifiedParserSchema))} {e : String}
    (h : Except.error e ∈ ops) :
    ∃ e', SportscannerCrawlerBot ops = Except.error e' := by
  induction ops with
  | nil => cases h
  | cons op rest ih =>
    rcases List.mem_cons.mp h with rfl | h'
    · exact ⟨e, rfl⟩
    · obtain ⟨e', he'⟩ := ih h'
      cases op with
      | error e0 => exact ⟨e0, rfl⟩
      | ok l => exact ⟨e', by rw [bot_cons_ok, he']⟩

theorem bot_ok_of_all_empty
    {ops : List (Except String (List UnifiedParserSchema))}
    (h : ∀ op ∈ ops, op = Except.ok ([] : List UnifiedParserSchema)) :
    ∃ responses, SportscannerCrawlerBot ops = Except.ok responses ∧
      ∀ l ∈ responses, l = [] := by
  induction ops with
  | nil => exact ⟨[], rfl, by simp⟩
  | cons op rest ih =>
    have hop := h _ (List.mem_cons_self _ _)
    obtain ⟨resp, hresp, hall⟩ := ih (fun o ho => h o (List.mem_cons_of_mem _ ho))
    refine ⟨[] :: resp, ?_, ?_⟩
    · rw [hop, bot_cons_ok, hresp]
    · intro l hl
      rcases List.mem_cons.mp hl with rfl | hl'
      · rfl
      · exact hall l hl'

theorem flattenComprehension_of_all_empty
    {responses : List (List UnifiedParserSchema)}
    (h : ∀ l ∈ responses, l = []) :
    flattenComprehension
      (responses.map (fun l => PyResponse.pylist (l.map PySlot.record))) = [] := by
  induction responses with
  | nil => rfl
  | cons l rest ih =>
    have hl := h _ (List.mem_cons_self _ _)
    have htail := ih (fun o ho => h o (List.mem_cons_of_mem _ ho))
    subst hl
    simpa [flattenComprehension, PyResponse.truthy, List.filter_cons]
      using htail

/-! ## Claim theorems -/

/-- C3: `flatten_responses`, applied to a sequence of per-operation result
sequences, discards empty/falsy entries (`[]`, `None`) and concatenates the
rest in input order: on `[[], [r1], None, [r2, r3]]` with valid Unified
Records `r1..r3` it returns exactly `[r1, r2, r3]` in that order. -/
theorem C3_flatten_order (r1 r2 r3 : UnifiedParserSchema) :
    flatten_responses
      [PyResponse.pylist [], PyResponse.pylist [PySlot.record r1],
        PyResponse.pynone,
        PyResponse.pylist [PySlot.record r2, PySlot.record r3]] =
      Except.ok [PySlot.record r1, PySlot.record r2, PySlot.record r3] := rfl

/-- C4: if any flattened element fails the `isinstance` Unified Record check,
`flatten_responses` raises the `TypeError` (aborting the refresh) instead of
dropping or coercing the bad record; if every flattened element satisfies the
check, it returns the flattened list without raising. -/
theorem C4_validation_fatal (responses : List PyResponse) :
    ((∃ s ∈ flattenComprehension responses, PySlot.isUnified s = false) →
      flatten_responses responses = Except.error
        ("TypeError: One or more elements in _validation_check are not of type: UnifiedParserSchema"))
    ∧ ((∀ s ∈ flattenComprehension responses, PySlot.isUnified s = true) →
      flatten_responses responses =
        Except.ok (flattenComprehension responses)) := by
  constructor
  · rintro ⟨s, hs, hbad⟩
    have hall : ¬((flattenComprehension responses).all PySlot.isUnified = true) := by
      rw [List.all_eq_true]
      intro hall
      rw [hall s hs] at hbad
      cases hbad
    simp only [flatten_responses]
    rw [if_neg hall]
  · intro hall
    have h : (flattenComprehension responses).all PySlot.isUnified = true :=
      List.all_eq_true.mpr hall
    simp only [flatten_responses]
    rw [if_pos h]

/-- C4 witness: a malformed element makes `flatten_responses` raise; an
all-valid input returns the flattened records. -/
theorem C4_validation_fatal_witness :
    flatten_responses [PyResponse.pylist [PySlot.other ("not-a-record")]] =
      Except.error
        ("TypeError: One or more elements in _validation_check are not of type: UnifiedParserSchema")
    ∧ flatten_responses [PyResponse.pylist [PySlot.record sampleRecord]] =
      Except.ok [PySlot.record sampleRecord] :=
  ⟨(C4_validation_fatal _).1 ⟨PySlot.other ("not-a-record"), by decide, rfl⟩,
   (C4_validation_fatal _).2 (by decide)⟩

/-- C2: if any fetch operation submitted by the full refresh raises, the
whole refresh call propagates that failure, no result is produced, and the
persisted dataset is left exactly unchanged — the delete-all-then-insert-all
publish step is never reached. -/
theorem C2_failfast_no_mutation (today : Nat) (venues : List SportsVenue)
    (adapters : List Nat → List String →
      List (Except String (List UnifiedParserSchema)))
    (ds : List UnifiedParserSchema) (e : String)
    (h : Except.error e ∈ adapters (crawl_arguments today venues).1
      (crawl_arguments today venues).2) :
    ∃ e', full_data_refresh_pipeline today venues adapters ds =
      (Except.error e', ds) := by
  obtain ⟨e', he'⟩ := bot_error_of_mem h
  refine ⟨e', ?_⟩
  simp only [full_data_refresh_pipeline]
  rw [he']

/-- C2 witness: a concrete batch with one failing fetch operation aborts the
refresh and leaves the dataset unchanged. -/
theorem C2_failfast_no_mutation_witness :
    Except.error ("adapter boom") ∈
      (fun (_ : List Nat) (_ : List String) =>
          [Except.ok [sampleRecord], Except.error ("adapter boom")])
        (crawl_arguments 738000 []).1 (crawl_arguments 738000 []).2
    ∧ ∃ e', full_data_refresh_pipeline 738000 []
        (fun _ _ => [Except.ok [sampleRecord], Except.error ("adapter boom")])
        [sampleRecord] = (Except.error e', [sampleRecord]) :=
  ⟨by simp, C2_failfast_no_mutation 738000 [] _ [sampleRecord] "adapter boom" (by simp)⟩

/-- C5: publishing an empty validated batch succeeds (it is not an error) and
results in an empty persisted dataset, whatever the prior dataset was: the
full refresh with all-empty successful fetches ends with
`(success, empty dataset)`, and the modelled publish step maps any prior
state and an empty batch to the empty dataset. -/
theorem C5_empty_batch (today : Nat) (venues : List SportsVenue)
    (adapters : List Nat → List String →
      List (Except String (List UnifiedParserSchema)))
    (ds : List UnifiedParserSchema)
    (h : ∀ op ∈ adapters (crawl_arguments today venues).1
        (crawl_arguments today venues).2,
      op = Except.ok ([] : List UnifiedParserSchema)) :
    full_data_refresh_pipeline today venues adapters ds = (Except.ok true, [])
    ∧ ∀ prior : List UnifiedParserSchema,
        delete_all_items_and_insert_fresh_to_db prior [] = [] := by
  refine ⟨?_, fun prior => rfl⟩
  obtain ⟨resp, hresp, hall⟩ := bot_ok_of_all_empty h
  have hflat := flattenComprehension_of_all_empty hall
  have hfr : flatten_responses
      (resp.map (fun l => PyResponse.pylist (l.map PySlot.record))) =
      Except.ok [] := by
    simp only [flatten_responses, hflat]
    rfl
  have hstep : full_data_refresh_pipeline today venues adapters ds =
      match flatten_responses
          (resp.map (fun l => PyResponse.pylist (l.map PySlot.record))) with
      | Except.error e => (Except.error e, ds)
      | Except.ok slots =>
        (Except.ok true,
          delete_all_items_and_insert_fresh_to_db ds (extractRecords slots)) := by
    simp only [full_data_refresh_pipeline]
    rw [hresp]
  rw [hstep, hfr]
  rfl

/-- C5 witness: with one successful-but-empty fetch operation and a nonempty
prior dataset, the refresh succeeds and leaves the dataset empty. -/
theorem C5_empty_batch_witness :
    (∀ op ∈ (fun (_ : List Nat) (_ : List String) =>
        ([Except.ok []] : List (Except String (List UnifiedParserSchema))))
        (crawl_arguments 738000 []).1 (crawl_arguments 738000 []).2,
      op = Except.ok ([] : List UnifiedParserSchema))
    ∧ (full_data_refresh_pipeline 738000 []
        (fun _ _ => ([Except.ok []] :
          List (Except String (List UnifiedParserSchema))))
        [sampleRecord] = (Except.ok true, [])
      ∧ ∀ prior : List UnifiedParserSchema,
          delete_all_items_and_insert_fresh_to_db prior [] = []) :=
  ⟨by simp, C5_empty_batch 738000 [] _ [sampleRecord] (by simp)⟩

/-- C6: if any row's composite key has no entry in the distance map, the
aggregation raises (the modelled `KeyError` of the dict subscript) — a
data-consistency failure aborting the query — rather than defaulting the
distance. -/
theorem C6_missing_distance_fatal (rows : List UnifiedParserSchema)
    (distances : List (String × ℚ)) (r : UnifiedParserSchema)
    (hr : r ∈ rows) (hmiss : distances.lookup r.composite_key = none) :
    ∃ e, searchAggregate rows distances = Except.error e := by
  have hkey : groupKey r ∈ groupKeys rows :=
    mem_groupKeys.mpr (List.mem_map_of_mem groupKey hr)
  have hgrp : ∃ p ∈ group_slots_by_attributes rows,
      distances.lookup p.1.1 = none :=
    ⟨(groupKey r, rows.filter (fun x => decide (groupKey x = groupKey r))),
      List.mem_map_of_mem _ hkey, hmiss⟩
  obtain ⟨e, he⟩ := decorate_error_of_missing hgrp
  refine ⟨e, ?_⟩
  simp only [searchAggregate]
  rw [he]

/-- C6 witness: one row whose venue is missing from the distance map makes
the aggregation fail. -/
theorem C6_missing_distance_fatal_witness :
    sampleRecord ∈ [sampleRecord]
    ∧ (([] : List (String × ℚ)).lookup sampleRecord.composite_key = none)
    ∧ ∃ e, searchAggregate [sampleRecord] [] = Except.error e :=
  ⟨List.mem_singleton.mpr rfl, rfl,
    C6_missing_distance_fatal [sampleRecord] [] sampleRecord
      (List.mem_singleton.mpr rfl) rfl⟩

/-- C9: the no-argument full refresh always crawls exactly the 15 consecutive
days from the invocation day (`today` through `today + 14`, embedded as
ordinal day numbers), for the composite keys of the venues returned by the
venue store; the horizon is a fixed constant of the pipeline. -/
theorem C9_crawl_horizon (today : Nat) (venues : List SportsVenue) :
    crawl_arguments today venues =
      ([today, today + 1, today + 2, today + 3, today + 4, today + 5,
        today + 6, today + 7, today + 8, today + 9, today + 10, today + 11,
        today + 12, today + 13, today + 14],
       venues.map SportsVenue.composite_key)
    ∧ (full_refresh_dates today).length = 15 := ⟨rfl, rfl⟩

/-- C10: every row returned by the search query satisfies `spaces > 0` and
`date >= today` (the query day), whatever the caller-supplied filters are —
historic rows and zero-availability rows are excluded unconditionally. -/
theorem C10_query_guards (ds : List SportScanner) (today : Date)
    (composite_keys : List String) (filters : SearchCriteria)
    (r : SportScanner)
    (hmem : r ∈ get_all_rows ds today composite_keys filters) :
    0 < r.spaces ∧ Date.le today r.date = true := by
  obtain ⟨_, hcond⟩ := List.mem_filter.mp hmem
  unfold searchWhere at hcond
  simp only [Bool.and_eq_true, decide_eq_true_eq] at hcond
  exact ⟨hcond.1.1.1.1.1.2, hcond.1.1.2⟩

/-- C10 witness: with a caller date range starting well before the query day,
a returned row still satisfies both guards. -/
theorem C10_query_guards_witness :
    (⟨"X", ⟨2024, 6, 3⟩, 600, 660, 2⟩ : SportScanner) ∈
      get_all_rows [⟨"X", ⟨2024, 6, 3⟩, 600, 660, 2⟩] ⟨2024, 6, 1⟩ ["X"]
        ⟨⟨540, 720⟩, ⟨⟨2024, 1, 1⟩, ⟨2024, 12, 31⟩⟩⟩
    ∧ (0 < (⟨"X", ⟨2024, 6, 3⟩, 600, 660, 2⟩ : SportScanner).spaces
      ∧ Date.le ⟨2024, 6, 1⟩
          (⟨"X", ⟨2024, 6, 3⟩, 600, 660, 2⟩ : SportScanner).date = true) :=
  ⟨by decide,
    C10_query_guards [⟨"X", ⟨2024, 6, 3⟩, 600, 660, 2⟩] ⟨2024, 6, 1⟩ ["X"]
      ⟨⟨540, 720⟩, ⟨⟨2024, 1, 1⟩, ⟨2024, 12, 31⟩⟩⟩ _ (by decide)⟩

/-- C8 (code-bug evidence): `standalone_refresh_trigger` never mutates the
dataset (the claim's frame part holds), but it does not return the flattened
fetched records: `chain.from_iterable` is applied twice, so as soon as the
gather result contains one record, the second pass tries to iterate a
`UnifiedParserSchema` itself and fails instead of returning `[record]`. -/
theorem C8_standalone_overflatten (r : UnifiedParserSchema)
    (ds : List UnifiedParserSchema) :
    standalone_refresh_trigger (Except.ok [[r]]) ds =
      (Except.error ("TypeError: UnifiedParserSchema object is not iterable"), ds)
    ∧ ∀ fetched, (standalone_refresh_trigger fetched ds).2 = ds := by
  refine ⟨rfl, ?_⟩
  intro fetched
  cases fetched with
  | error e => rfl
  | ok slots =>
    simp only [standalone_refresh_trigger]
    cases h : chain_from_iterable
        (slots.map (fun l => PyObj.pylist (l.map PyObj.record))) with
    | error e => rfl
    | ok once => rfl

theorem groups_covered_of_rows {rows : List UnifiedParserSchema}
    {distances : List (String × ℚ)}
    (hcov : ∀ r ∈ rows, (distances.lookup r.composite_key).isSome = true) :
    ∀ p ∈ group_slots_by_attributes rows,
      (distances.lookup p.1.1).isSome = true := by
  intro p hp
  have hk : p.1 ∈ groupKeys rows := by
    have := List.mem_map_of_mem Prod.fst hp
    rwa [group_slots_fst] at this
  obtain ⟨r, hr, hrk⟩ := List.mem_map.mp (mem_groupKeys.mp hk)
  have hck : r.composite_key = p.1.1 := congrArg Prod.fst hrk
  rw [← hck]
  exact hcov r hr

theorem decorate_date_mem {rows : List UnifiedParserSchema}
    {distances : List (String × ℚ)} {resp : List GroupedResult}
    (hd : sort_and_format_grouped_slots_for_ui (group_slots_by_attributes rows)
      distances = Except.ok resp)
    {g : GroupedResult} (hg : g ∈ resp) :
    ∃ r ∈ rows, r.date = g.date := by
  have hmem : gid g ∈ resp.map gid := List.mem_map_of_mem _ hg
  rw [decorate_map_gid hd] at hmem
  obtain ⟨p, hp, hpe⟩ := List.mem_map.mp hmem
  have hdate : p.1.2 = g.date := congrArg (fun t => t.2.1) hpe
  have hk : p.1 ∈ groupKeys rows := by
    have := List.mem_map_of_mem Prod.fst hp
    rwa [group_slots_fst] at this
  obtain ⟨r, hr, hrk⟩ := List.mem_map.mp (mem_groupKeys.mp hk)
  have hrd : r.date = p.1.2 := congrArg Prod.snd hrk
  exact ⟨r, hr, hrd.trans hdate⟩

theorem group_slots_gid_map (rows : List UnifiedParserSchema)
    (distances : List (String × ℚ)) :
    (group_slots_by_attributes rows).map
        (fun p => (p.1.1, p.1.2, (distances.lookup p.1.1).getD 0)) =
      (groupKeys rows).map
        (fun k => (k.1, k.2, (distances.lookup k.1).getD 0)) := by
  rw [group_slots_by_attributes, List.map_map]
  rfl

/-- C7 counterexample: the claim describes the shared final ordering as
date ascending then distance ascending, but (already for the identity
permutation) the code's ordering is not calendar-date ascending across a year
boundary: rows dated 2024-12-30 (venue C) and 2025-01-02 (venue D) come back
with D first, although C's calendar date is strictly earlier. -/
theorem C7_counterexample :
    ([⟨"C", ⟨2024, 12, 30⟩, 540, 600, 2⟩,
      ⟨"D", ⟨2025, 1, 2⟩, 540, 600, 2⟩] : List UnifiedParserSchema).Perm
      [⟨"C", ⟨2024, 12, 30⟩, 540, 600, 2⟩, ⟨"D", ⟨2025, 1, 2⟩, 540, 600, 2⟩]
    ∧ (searchAggregate
        [⟨"C", ⟨2024, 12, 30⟩, 540, 600, 2⟩, ⟨"D", ⟨2025, 1, 2⟩, 540, 600, 2⟩]
        [("C", 2), ("D", 7)]).map (List.map gid) =
      Except.ok [("D", ⟨2025, 1, 2⟩, (7 : ℚ)), ("C", ⟨2024, 12, 30⟩, (2 : ℚ))]
    ∧ Date.lt ⟨2024, 12, 30⟩ ⟨2025, 1, 2⟩ = true :=
  ⟨List.Perm.refl _, rfl, rfl⟩

/-- C7 (amended): for every row sequence whose dates the `strptime`
round-trip accepts (Feb 29 is not accepted: the default year 1900 is not a
leap year, so such a batch makes the query raise instead), distance map
covering the rows, and permutation of the rows, the aggregation produces the
same group membership (grouping by exact (composite_key, date) equality:
each group is the filter of the input by its key, and permuting the input
permutes each group's membership and the set of groups), and the same final
ordering by the code's sort key — (month, day) of the date (the
display-format round trip drops the year) then distance — with both outputs
sorted, their sort-key sequences equal, and ties resolved exactly by the
respective pre-sort input order. -/
theorem C7_permutation_amended (rows rows' : List UnifiedParserSchema)
    (distances : List (String × ℚ))
    (hperm : rows.Perm rows')
    (hcov : ∀ r ∈ rows, (distances.lookup r.composite_key).isSome = true)
    (hvalid : ∀ r ∈ rows, strptimeOk r.date = true) :
    (groupKeys rows).Perm (groupKeys rows')
    ∧ (∀ k : String × Date,
        (rows.filter (fun r => decide (groupKey r = k))).Perm
          (rows'.filter (fun r => decide (groupKey r = k))))
    ∧ ∃ resp resp' out out',
        sort_and_format_grouped_slots_for_ui (group_slots_by_attributes rows)
          distances = Except.ok resp
        ∧ sort_and_format_grouped_slots_for_ui
            (group_slots_by_attributes rows') distances = Except.ok resp'
        ∧ searchAggregate rows distances = Except.ok out
        ∧ searchAggregate rows' distances = Except.ok out'
        ∧ (out.map gid).Perm (out'.map gid)
        ∧ out.map searchSortKey = out'.map searchSortKey
        ∧ List.Sorted gRel out ∧ List.Sorted gRel out'
        ∧ (∀ v, out.filter (fun g => decide (searchSortKey g = v)) =
            resp.filter (fun g => decide (searchSortKey g = v)))
        ∧ (∀ v, out'.filter (fun g => decide (searchSortKey g = v)) =
            resp'.filter (fun g => decide (searchSortKey g = v))) := by
  have hkeysperm := groupKeys_perm hperm
  refine ⟨hkeysperm, fun k => hperm.filter _, ?_⟩
  obtain ⟨resp, hresp⟩ := decorate_ok_of_covered (groups_covered_of_rows hcov)
  have hcov' : ∀ r ∈ rows', (distances.lookup r.composite_key).isSome = true :=
    fun r hr => hcov r (hperm.mem_iff.mpr hr)
  obtain ⟨resp', hresp'⟩ :=
    decorate_ok_of_covered (groups_covered_of_rows hcov')
  have hvalid' : ∀ r ∈ rows', strptimeOk r.date = true :=
    fun r hr => hvalid r (hperm.mem_iff.mpr hr)
  have hvresp : resp.all (fun g => strptimeOk g.date) = true := by
    rw [List.all_eq_true]
    intro g hg
    obtain ⟨r, hr, hre⟩ := decorate_date_mem hresp hg
    rw [← hre]
    exact hvalid r hr
  have hvresp' : resp'.all (fun g => strptimeOk g.date) = true := by
    rw [List.all_eq_true]
    intro g hg
    obtain ⟨r, hr, hre⟩ := decorate_date_mem hresp' hg
    rw [← hre]
    exact hvalid' r hr
  have hout : searchAggregate rows distances =
      Except.ok (List.insertionSort gRel resp) := by
    simp only [searchAggregate, hresp]
    rw [if_pos hvresp]
  have hout' : searchAggregate rows' distances =
      Except.ok (List.insertionSort gRel resp') := by
    simp only [searchAggregate, hresp']
    rw [if_pos hvresp']
  have hgidperm : ((List.insertionSort gRel resp).map gid).Perm
      ((List.insertionSort gRel resp').map gid) := by
    refine ((List.perm_insertionSort gRel resp).map gid).trans ?_
    refine List.Perm.trans ?_ (((List.perm_insertionSort gRel resp').map gid).symm)
    rw [decorate_map_gid hresp, decorate_map_gid hresp',
      group_slots_gid_map, group_slots_gid_map]
    exact hkeysperm.map _
  have hsorted := List.sorted_insertionSort gRel resp
  have hsorted' := List.sorted_insertionSort gRel resp'
  have hmap : ∀ l : List GroupedResult,
      l.map searchSortKey =
        (l.map gid).map (fun t => (t.2.1.month, t.2.1.day, t.2.2)) := by
    intro l
    rw [List.map_map]
    rfl
  have hkeysmap : (List.insertionSort gRel resp).map searchSortKey =
      (List.insertionSort gRel resp').map searchSortKey := by
    have hp : ((List.insertionSort gRel resp).map searchSortKey).Perm
        ((List.insertionSort gRel resp').map searchSortKey) := by
      rw [hmap, hmap]
      exact hgidperm.map _
    have hs1 : List.Sorted kRel
        ((List.insertionSort gRel resp).map searchSortKey) :=
      List.pairwise_map.mpr hsorted
    have hs2 : List.Sorted kRel
        ((List.insertionSort gRel resp').map searchSortKey) :=
      List.pairwise_map.mpr hsorted'
    exact List.eq_of_perm_of_sorted hp hs1 hs2
  exact ⟨resp, resp', List.insertionSort gRel resp,
    List.insertionSort gRel resp', hresp, hresp', hout, hout', hgidperm,
    hkeysmap, hsorted, hsorted',
    fun v => filter_key_insertionSort resp v,
    fun v => filter_key_insertionSort resp' v⟩

/-- Fidelity of the error path the sort key introduces: a batch containing a
February 29 date makes the aggregation raise the `ValueError` of
`datetime.strptime` (day 29 is out of range for February of the default year
1900) instead of returning an ordered list. -/
theorem searchAggregate_feb29_valueerror :
    searchAggregate [⟨"L", ⟨2024, 2, 29⟩, 600, 660, 3⟩] [("L", 1)] =
      Except.error ("ValueError: day is out of range for month") := rfl

/-- C7 witness: two rows and their swap aggregate successfully to outputs with
identical sort-key sequences. -/
theorem C7_permutation_amended_witness :
    ∃ out out',
      searchAggregate
          [⟨"P", ⟨2024, 7, 1⟩, 600, 660, 1⟩, ⟨"Q", ⟨2024, 7, 2⟩, 600, 660, 2⟩]
          [("P", 3), ("Q", 4)] = Except.ok out
      ∧ searchAggregate
          [⟨"Q", ⟨2024, 7, 2⟩, 600, 660, 2⟩, ⟨"P", ⟨2024, 7, 1⟩, 600, 660, 1⟩]
          [("P", 3), ("Q", 4)] = Except.ok out'
      ∧ out.map searchSortKey = out'.map searchSortKey := by
  obtain ⟨-, -, resp, resp', out, out', -, -, ho, ho', -, hkeys, -⟩ :=
    C7_permutation_amended
      [⟨"P", ⟨2024, 7, 1⟩, 600, 660, 1⟩, ⟨"Q", ⟨2024, 7, 2⟩, 600, 660, 2⟩]
      [⟨"Q", ⟨2024, 7, 2⟩, 600, 660, 2⟩, ⟨"P", ⟨2024, 7, 1⟩, 600, 660, 1⟩]
      [("P", 3), ("Q", 4)]
      (List.Perm.swap _ _ _) (by decide) (by decide)
  exact ⟨out, out', ho, ho', hkeys⟩
